import Mathlib

/-!
Verification of the BIRD-DETECTING-CCTV specification against the code.

The visible repository code is `src/static/js/dashboard.js` (the browser
dashboard). The capture/inference core (Frame Bus, Detector Adapter,
Detection Ledger, Capture/Inference Loop, Stream Multiplexer, Summary
Endpoint) is described by the specification but its source is not part of
the repository excerpt; those components are modelled from the spec, and
each such definition says so in its doc comment.

Numbers: JavaScript numbers and model confidences are embedded as `Int` /
`ℚ`; the concrete decimal literals compared here (0.39, 0.4, 0.75, 0.9)
are exact in `ℚ` and their comparisons agree with the source's semantics.
-/

/-! ## Dashboard client (src/static/js/dashboard.js) -/

/-- Constant `API_ENDPOINT` from dashboard.js line 1. -/
def API_ENDPOINT : String := "/api/detections"

/-- Constant `POLL_INTERVAL` from dashboard.js line 2 (milliseconds). -/
def POLL_INTERVAL : Nat := 5000

/-- A JavaScript value that can sit in `summary.last_updated`: `undefined`
(field missing), `null` (JSON null), or a number of unix-epoch seconds. -/
inductive JSTimestamp where
  | undef : JSTimestamp
  | null : JSTimestamp
  | num : Int → JSTimestamp
deriving DecidableEq

/-- JavaScript truthiness of a `JSTimestamp`: `undefined`, `null` and the
number `0` are falsy, every other number is truthy. -/
def JSTimestamp.truthy : JSTimestamp → Bool
  | .undef => false
  | .null => false
  | .num n => n != 0

/-- Function `formatTimestamp` from dashboard.js lines 8-14:
`if (!timestamp) return 'N/A'; return new Date(timestamp * 1000).toLocaleString()`.
The browser built-in `Date.toLocaleString` is external to the repository and
is passed in as `loc`, applied to the constructed millisecond value. -/
def formatTimestamp (loc : Int → String) (timestamp : JSTimestamp) : String :=
  if timestamp.truthy then
    match timestamp with
    | .num n => loc (n * 1000)
    | _ => "N/A"
  else "N/A"

/-- One detection entry as the dashboard consumes it from the summary JSON:
`{label, confidence}`. -/
structure DashDet where
  label : String
  confidence : ℚ
deriving DecidableEq

/-- One `<tr>` produced by `renderDetections`: either the "no detections"
notice row, or a row holding a detection's label cell and confidence cell
(the confidence cell shows `det.confidence.toFixed(2)`, determined by the
stored value). -/
inductive Row where
  | emptyNotice : Row
  | det : String → ℚ → Row
deriving DecidableEq

/-- Function `renderDetections` from dashboard.js lines 16-34: clears the table body,
then renders a single colspan notice row when `detections.length` is zero
and otherwise one row per detection. -/
def renderDetections (detections : List DashDet) : List Row :=
  if detections.length = 0 then [Row.emptyNotice]
  else detections.map (fun d => Row.det d.label d.confidence)

/-- The summary JSON body as dashboard.js reads it: `count`,
`last_updated`, and `detections` (possibly absent, guarded by
`summary.detections || []` on line 45). -/
structure JSSummary where
  count : Int
  last_updated : JSTimestamp
  detections : Option (List DashDet)

/-- The dashboard DOM state that `refreshSummary` writes: the text of
`#detection-count`, the text of `#last-updated`, and the rows of
`#detection-table tbody`. -/
structure DashState where
  countText : String
  lastUpdatedText : String
  rows : List Row
deriving DecidableEq

/-- Outcome of `fetch(API_ENDPOINT)` plus `response.json()`: the fetch
promise rejects, or a response arrives with an `ok` flag and a body that
parses to a summary (`none` when `response.json()` rejects). -/
inductive FetchOutcome where
  | reject : FetchOutcome
  | response : Bool → Option JSSummary → FetchOutcome

/-- The `try` block of `refreshSummary` (dashboard.js lines 37-45) with
JavaScript exceptions embedded as `Except`: a rejected fetch, a not-ok
response (`throw new Error(...)` on line 40) or a body that fails to parse
escapes as `.error`; otherwise the three DOM writes happen in order. -/
def refreshSummaryTry (loc : Int → String) (o : FetchOutcome) :
    Except Unit DashState :=
  match o with
  | .reject => .error ()
  | .response ok body =>
    if !ok then .error ()
    else
      match body with
      | none => .error ()
      | some summary =>
        .ok { countText := toString summary.count
            , lastUpdatedText := formatTimestamp loc summary.last_updated
            , rows := renderDetections (summary.detections.getD []) }

/-- Function `refreshSummary` from dashboard.js lines 36-49: runs the `try` block;
the `catch` block only calls `console.error`, so on any escaped exception
the previous DOM state `s` is left untouched. -/
def refreshSummary (loc : Int → String) (o : FetchOutcome) (s : DashState) :
    DashState :=
  match refreshSummaryTry loc o with
  | .ok s2 => s2
  | .error _ => s

/-- One action performed by the `DOMContentLoaded` listener. -/
inductive DashAction where
  | callRefresh : DashAction
  | setIntervalRefresh : Nat → DashAction
deriving DecidableEq

/-- The `DOMContentLoaded` listener body from dashboard.js lines 51-54:
`refreshSummary(); setInterval(refreshSummary, POLL_INTERVAL);`. -/
def onDOMContentLoaded : List DashAction :=
  [DashAction.callRefresh, DashAction.setIntervalRefresh POLL_INTERVAL]

/-- Time (ms after page load) of the k-th `refreshSummary` call produced by
`onDOMContentLoaded`: call 0 is the immediate call, and `setInterval`
fires calls 1, 2, ... at successive multiples of `POLL_INTERVAL`. -/
def dashCallTime : Nat → Nat
  | 0 => 0
  | Nat.succ k => (k + 1) * POLL_INTERVAL

/-! ## Detection Ledger and Summary Endpoint (modelled from the spec) -/

/-- Modelled from the spec: the `Detection` record of the data model (§3),
`{label, confidence, timestamp}`, produced by the Detector Adapter; the
Detector Adapter and Ledger sources are not part of the repository
excerpt. -/
structure Detection where
  label : String
  confidence : ℚ
  timestamp : Int
deriving DecidableEq

/-- Modelled from the spec: the Detection Ledger state (§4.4): a running
`count`, a `last_updated` timestamp (absent until the first record), and a
bounded window of recent detections kept most-recent-first. -/
structure Ledger where
  count : Nat
  lastUpdated : Option Int
  window : List Detection
deriving DecidableEq

/-- Modelled from the spec: the Ledger state before any detection has ever
been recorded (§6: count 0, last_updated null, empty window). -/
def Ledger.empty : Ledger := { count := 0, lastUpdated := none, window := [] }

/-- Modelled from the spec: `record(detections, timestamp)` (§4.4) —
appends the cycle's detections to the bounded window (newest first,
evicting the oldest entries past capacity `K`), sets `last_updated`, and
adds to the running count. -/
def Ledger.record (K : Nat) (st : Ledger) (ds : List Detection) (ts : Int) :
    Ledger :=
  { count := st.count + ds.length
  , lastUpdated := some ts
  , window := (ds.reverse ++ st.window).take K }

/-- Modelled from the spec: the `DetectionSummary` of the data model (§3)
and of the Summary API JSON (§6). -/
structure DetectionSummary where
  count : Nat
  last_updated : Option Int
  detections : List Detection
deriving DecidableEq

/-- Modelled from the spec: `snapshot()` (§4.4) — a consistent
point-in-time copy of the Ledger as a `DetectionSummary`. -/
def Ledger.snapshot (st : Ledger) : DetectionSummary :=
  { count := st.count, last_updated := st.lastUpdated, detections := st.window }

/-- Modelled from the spec: `getSummary()` (§4.7), the read-only accessor
behind `GET /api/detections`, delegating to `snapshot()`. -/
def getSummary (st : Ledger) : DetectionSummary := st.snapshot

/-- Runs a sequence of `record` operations (each a detection batch with its
timestamp) on the empty Ledger. -/
def runRecords (K : Nat) (ops : List (List Detection × Int)) : Ledger :=
  ops.foldl (fun st op => st.record K op.1 op.2) Ledger.empty

/-- All detections ever passed to `record` by a sequence of operations,
listed most recent first (within a batch, later list entries counted as
more recent, matching `Ledger.record`). -/
def historyMRF (ops : List (List Detection × Int)) : List Detection :=
  ops.foldl (fun acc op => op.1.reverse ++ acc) []

/-! ## Detector Adapter filtering (modelled from the spec) -/

/-- Modelled from the spec: the post-call filter of the Detector Adapter
(§4.3) — detections whose label is not in the configured label set, or
whose confidence is below the configured floor, are discarded before
reaching the Detection Ledger. -/
def filterDetections (labels : List String) (minConf : ℚ)
    (raw : List Detection) : List Detection :=
  raw.filter (fun d => labels.contains d.label && minConf ≤ d.confidence)

/-- Modelled from the spec: one capture/inference cycle's ledger
interaction (§4.4, §4.5): the raw inference result is filtered; `record`
is invoked (flag `true`) only when at least one detection survived, and a
cycle producing zero detections leaves the Ledger untouched. -/
def inferenceCycle (K : Nat) (labels : List String) (minConf : ℚ)
    (raw : List Detection) (ts : Int) (st : Ledger) : Ledger × Bool :=
  let filtered := filterDetections labels minConf raw
  if filtered.isEmpty then (st, false) else (st.record K filtered ts, true)

/-! ## Capture/Inference Loop state machine (modelled from the spec) -/

/-- Modelled from the spec: the Capture/Inference Loop phases (§4.5),
`Idle → Running → Draining → Stopped`. -/
inductive Phase where
  | Idle : Phase
  | Running : Phase
  | Draining : Phase
  | Stopped : Phase
deriving DecidableEq

/-- Modelled from the spec: the loop's supervision state — its phase, the
current run of consecutive `CaptureError`s, and whether the source is
still available to new stream subscriptions (§7: after a fatal capture
failure, new subscriptions fail fast). -/
structure LoopState where
  phase : Phase
  consecutiveFailures : Nat
  sourceAvailable : Bool
deriving DecidableEq

/-- Result of one `nextFrame` call seen by the loop: a frame, or a
transient `CaptureError` (§4.1). -/
inductive CaptureResult where
  | ok : CaptureResult
  | err : CaptureResult
deriving DecidableEq

/-- Modelled from the spec: the loop state after `Idle → Running` (the
Camera Source opened successfully, §4.5). -/
def LoopState.start : LoopState :=
  { phase := Phase.Running, consecutiveFailures := 0, sourceAvailable := true }

/-- Modelled from the spec: one `Running` iteration of the loop (§4.1,
§4.5, §7). A successful read resets the consecutive-failure run; a
`CaptureError` is retried while the run stays within the retry budget, and
exceeding the budget escalates to `SourceUnavailable`: the loop drains (the
in-flight work completes within this step) and stops, marking the source
unavailable. Outside `Running` the loop reads no frames. -/
def loopStep (budget : Nat) (st : LoopState) (r : CaptureResult) : LoopState :=
  match st.phase with
  | Phase.Running =>
    match r with
    | CaptureResult.ok => { st with consecutiveFailures := 0 }
    | CaptureResult.err =>
      let f := st.consecutiveFailures + 1
      if budget < f then
        { phase := Phase.Stopped, consecutiveFailures := f,
          sourceAvailable := false }
      else { st with consecutiveFailures := f }
  | _ => st

/-- Runs the loop over a sequence of capture results. -/
def runLoop (budget : Nat) (st : LoopState) (rs : List CaptureResult) :
    LoopState :=
  rs.foldl (loopStep budget) st

/-- Modelled from the spec: whether `subscribe()` on the Stream Multiplexer
is accepted (§7: new subscriptions after a fatal capture failure fail fast
with a source-unavailable status). -/
def subscribeAllowed (st : LoopState) : Bool := st.sourceAvailable

/-! ## Frame Bus (modelled from the spec) -/

/-- Modelled from the spec: a `Frame` (§3): an opaque image buffer plus a
sequence number and a capture timestamp. -/
structure Frame where
  seq : Nat
  timestamp : Int
  data : String
deriving DecidableEq

/-- One interaction of a single reader with the Frame Bus: the capture loop
publishes a frame, or the reader calls `latest()`. -/
inductive BusEvent where
  | publish : Frame → BusEvent
  | read : BusEvent

/-- State of the Frame Bus together with one reader's log: the single
latest-frame slot (§4.2, `none` before the first publish) and the frames
returned to the reader so far, in order. -/
structure BusRun where
  bus : Option Frame
  log : List Frame
deriving DecidableEq

/-- Modelled from the spec: `publish` replaces the latest-frame slot;
`latest()` returns the most recent published frame without consuming it,
or empty before any publish (§4.2) — a read on the empty bus returns
nothing to the reader. -/
def busStep (st : BusRun) (e : BusEvent) : BusRun :=
  match e with
  | BusEvent.publish f => { st with bus := some f }
  | BusEvent.read =>
    match st.bus with
    | none => st
    | some f => { st with log := st.log ++ [f] }

/-- Runs a sequence of bus events from the initial empty bus. -/
def runBus (evs : List BusEvent) : BusRun :=
  evs.foldl busStep { bus := none, log := [] }

/-- Sequence numbers of the published frames, in publish order. -/
def publishedSeqs : List BusEvent → List Nat
  | [] => []
  | BusEvent.publish f :: rest => f.seq :: publishedSeqs rest
  | BusEvent.read :: rest => publishedSeqs rest

/-- Invariant of a single reader's interaction with the Frame Bus: the
sequence numbers returned so far are non-decreasing, every returned frame
is no newer than the frame currently in the bus slot, and nothing has been
returned while the slot was still empty. -/
def BusInv (st : BusRun) : Prop :=
  List.Pairwise (fun a b => a ≤ b) (st.log.map Frame.seq)
  ∧ (∀ f ∈ st.log, ∀ b, st.bus = some b → f.seq ≤ b.seq)
  ∧ (st.bus = none → st.log = [])

/-! ## Theorems -/

/-- C1: for the state in which no detection has ever been recorded, the
summary endpoint behind `GET /api/detections` returns exactly count 0,
last_updated null, and an empty detections list. -/
theorem summary_initial_empty :
    getSummary Ledger.empty =
      { count := 0, last_updated := none, detections := [] } := rfl

/-- C4 counterexample: the dashboard's timestamp formatter renders an
absent (null) timestamp as "N/A", not as the string "not available", so
the claim as stated is false for any locale renderer, here the concrete
one mapping every input to "date". -/
theorem formatTimestamp_not_the_words_not_available :
    formatTimestamp (fun _ => "date") JSTimestamp.null ≠ "not available" := by
  decide

/-- C4 amended: for every absent (null or undefined) last_updated the
formatter returns the string "N/A", and for every truthy (present,
nonzero) timestamp it returns the locale-formatted date-time of
timestamp * 1000 instead. -/
theorem formatTimestamp_na_or_date (loc : Int → String) :
    formatTimestamp loc JSTimestamp.null = "N/A"
    ∧ formatTimestamp loc JSTimestamp.undef = "N/A"
    ∧ ∀ n : Int, n ≠ 0 →
        formatTimestamp loc (JSTimestamp.num n) = loc (n * 1000) := by
  refine ⟨rfl, rfl, fun n hn => ?_⟩
  simp [formatTimestamp, JSTimestamp.truthy, hn]

/-- C4 witness: the amended theorem applied at the locale renderer
`toString` and the concrete timestamp 5. -/
theorem formatTimestamp_na_or_date_check :
    (5 : Int) ≠ 0
    ∧ formatTimestamp (fun n => toString n) (JSTimestamp.num 5) =
        (fun n : Int => toString n) (5 * 1000) :=
  ⟨by decide, (formatTimestamp_na_or_date (fun n => toString n)).2.2 5 (by decide)⟩

/-- C10: the formatter treats every falsy timestamp — undefined, null, and
the number 0 (the unix epoch) — as absent and returns "N/A"; in
particular for the input 0 it does not render a formatted date. -/
theorem formatTimestamp_falsy_na (loc : Int → String) :
    formatTimestamp loc JSTimestamp.undef = "N/A"
    ∧ formatTimestamp loc JSTimestamp.null = "N/A"
    ∧ formatTimestamp loc (JSTimestamp.num 0) = "N/A" :=
  ⟨rfl, rfl, rfl⟩

/-- C8: the `DOMContentLoaded` handler issues one immediate summary fetch
and registers a repeating fetch at exactly `POLL_INTERVAL` = 5000 ms, so
consecutive scheduled call times are always 5000 ms apart. -/
theorem dashboard_polls_every_5000ms :
    onDOMContentLoaded =
      [DashAction.callRefresh, DashAction.setIntervalRefresh 5000]
    ∧ dashCallTime 0 = 0
    ∧ ∀ k : Nat, dashCallTime (k + 1) = dashCallTime k + 5000 := by
  refine ⟨rfl, rfl, fun k => ?_⟩
  cases k with
  | zero => rfl
  | succ m =>
    simp only [dashCallTime, POLL_INTERVAL]
    ring

/-- C9: when the fetch rejects, or the response arrives with a not-ok
status, `refreshSummary` leaves the whole displayed dashboard state
(count text, last-updated text, and detection table rows) exactly as it
was; the error is only logged. -/
theorem refreshSummary_error_keeps_state (loc : Int → String) (s : DashState) :
    refreshSummary loc FetchOutcome.reject s = s
    ∧ ∀ body, refreshSummary loc (FetchOutcome.response false body) s = s :=
  ⟨rfl, fun _ => rfl⟩

/-- C3: with label set {bird} and confidence floor 0.4, the raw inference
result [bird 0.39, bird 0.75, cat 0.9] filters to exactly [bird 0.75];
and in general every raw detection whose label is outside the configured
set, or whose confidence is below the floor, is discarded by the Detector
Adapter filter before reaching the Detection Ledger. -/
theorem filterDetections_bird_example :
    filterDetections ["bird"] (2/5)
        [{ label := "bird", confidence := 39/100, timestamp := 0 },
         { label := "bird", confidence := 3/4, timestamp := 0 },
         { label := "cat", confidence := 9/10, timestamp := 0 }]
      = [{ label := "bird", confidence := 3/4, timestamp := 0 }]
    ∧ ∀ (labels : List String) (minConf : ℚ) (raw : List Detection)
        (d : Detection),
        (labels.contains d.label = false ∨ d.confidence < minConf) →
        d ∉ filterDetections labels minConf raw := by
  refine ⟨?_, fun labels minConf raw d h hmem => ?_⟩
  · norm_num [filterDetections, List.filter]
    decide
  rw [filterDetections, List.mem_filter] at hmem
  have hp := hmem.2
  simp only [Bool.and_eq_true, decide_eq_true_eq] at hp
  cases h with
  | inl hl => rw [hl] at hp; exact Bool.false_ne_true hp.1
  | inr hc => exact absurd hp.2 (not_le.mpr hc)

/-- C3 witness: the general discard clause applied at the concrete cat
detection of the example, whose label is outside {bird}. -/
theorem filterDetections_bird_example_check :
    ((["bird"] : List String).contains "cat" = false
      ∨ (9/10 : ℚ) < 2/5)
    ∧ { label := "cat", confidence := 9/10, timestamp := 0 } ∉
        filterDetections ["bird"] (2/5)
          [{ label := "bird", confidence := 39/100, timestamp := 0 },
           { label := "bird", confidence := 3/4, timestamp := 0 },
           { label := "cat", confidence := 9/10, timestamp := 0 }] :=
  ⟨Or.inl (by decide),
    filterDetections_bird_example.2 ["bird"] (2/5) _ _ (Or.inl (by decide))⟩

/-- C5: in a capture/inference cycle whose filtered detection list is
empty, `record` is not invoked and the Ledger (in particular its
last_updated field) is unchanged; and `record` is invoked exactly when at
least one detection passed filtering. -/
theorem inferenceCycle_record_only_nonempty (K : Nat) (labels : List String)
    (minConf : ℚ) (raw : List Detection) (ts : Int) (st : Ledger) :
    (filterDetections labels minConf raw = [] →
      inferenceCycle K labels minConf raw ts st = (st, false)
      ∧ (inferenceCycle K labels minConf raw ts st).1.lastUpdated =
          st.lastUpdated)
    ∧ ((inferenceCycle K labels minConf raw ts st).2 = true ↔
        filterDetections labels minConf raw ≠ []) := by
  constructor
  · intro h
    have : inferenceCycle K labels minConf raw ts st = (st, false) := by
      simp [inferenceCycle, h]
    exact ⟨this, by rw [this]⟩
  · by_cases h : filterDetections labels minConf raw = []
    · simp [inferenceCycle, h]
    · have hne : (filterDetections labels minConf raw).isEmpty = false := by
        cases hc : filterDetections labels minConf raw with
        | nil => exact absurd hc h
        | cons a l => rfl
      simp [inferenceCycle, hne, h]

/-- C5 witness: the theorem applied at a concrete cycle whose only raw
detection (a cat at confidence 0.5) is filtered out, leaving the empty
Ledger untouched and `record` uninvoked. -/
theorem inferenceCycle_record_only_nonempty_check :
    filterDetections ["bird"] (2/5)
        [{ label := "cat", confidence := 1/2, timestamp := 7 }] = []
    ∧ inferenceCycle 5 ["bird"] (2/5)
        [{ label := "cat", confidence := 1/2, timestamp := 7 }] 7 Ledger.empty
        = (Ledger.empty, false) :=
  ⟨by norm_num [filterDetections, List.filter]; decide,
    ((inferenceCycle_record_only_nonempty 5 ["bird"] (2/5)
        [{ label := "cat", confidence := 1/2, timestamp := 7 }] 7
        Ledger.empty).1 (by norm_num [filterDetections, List.filter]; decide)).1⟩

/-- Taking `n` of an append is unaffected by pre-truncating the right part
to `n`; this is why re-truncating the Ledger window at each `record`
agrees with truncating the full history once. -/
theorem take_append_take (a b : List Detection) (n : Nat) :
    (a ++ b.take n).take n = (a ++ b).take n := by
  simp [List.take_append_eq_append_take, List.take_take]

/-- A Ledger whose window is the K-truncation of some history keeps that
shape under any further sequence of `record` operations, with the history
extended batch by batch. -/
theorem record_foldl_window (K : Nat) :
    ∀ (ops : List (List Detection × Int)) (st : Ledger) (h : List Detection),
      st.window = h.take K →
      (ops.foldl (fun st op => st.record K op.1 op.2) st).window =
        (ops.foldl (fun acc op => op.1.reverse ++ acc) h).take K := by
  intro ops
  induction ops with
  | nil => intro st h hw; exact hw
  | cons op rest ih =>
    intro st h hw
    simp only [List.foldl_cons]
    apply ih
    show (op.1.reverse ++ st.window).take K = (op.1.reverse ++ h).take K
    rw [hw, take_append_take]

/-- C2: after any sequence of `record` operations the Ledger window (as
returned by `snapshot()`) never holds more than K entries, it is exactly
the K-truncation of the most-recent-first history of all recorded
detections, and once more than K detections have been recorded it holds
exactly K entries (the K most recent, most recent first). -/
theorem ledger_window_bounded (K : Nat) (ops : List (List Detection × Int)) :
    (runRecords K ops).snapshot.detections.length ≤ K
    ∧ (runRecords K ops).snapshot.detections = (historyMRF ops).take K
    ∧ (K < (historyMRF ops).length →
        (runRecords K ops).snapshot.detections.length = K) := by
  have key : (runRecords K ops).snapshot.detections = (historyMRF ops).take K :=
    record_foldl_window K ops Ledger.empty [] (by simp [Ledger.empty])
  refine ⟨?_, key, fun hlt => ?_⟩
  · rw [key, List.length_take]
    exact min_le_left _ _
  · rw [key, List.length_take]
    omega

/-- C2 witness: with capacity K = 1 and two recorded single-detection
batches, the history is longer than K and the snapshot holds exactly the
one most recent detection. -/
theorem ledger_window_bounded_check :
    1 < (historyMRF
        [([{ label := "bird", confidence := 1, timestamp := 1 }], 1),
         ([{ label := "bird", confidence := 1, timestamp := 2 }], 2)]).length
    ∧ (runRecords 1
        [([{ label := "bird", confidence := 1, timestamp := 1 }], 1),
         ([{ label := "bird", confidence := 1, timestamp := 2 }], 2)]
        ).snapshot.detections.length = 1 :=
  ⟨by decide,
    (ledger_window_bounded 1
      [([{ label := "bird", confidence := 1, timestamp := 1 }], 1),
       ([{ label := "bird", confidence := 1, timestamp := 2 }], 2)]).2.2
      (by decide)⟩

/-- Outside the `Running` phase the loop ignores capture results. -/
theorem loopStep_not_running (budget : Nat) (st : LoopState)
    (r : CaptureResult) (h : st.phase ≠ Phase.Running) :
    loopStep budget st r = st := by
  unfold loopStep
  cases hp : st.phase with
  | Running => exact absurd hp h
  | Idle => rfl
  | Draining => rfl
  | Stopped => rfl

/-- A loop that has left `Running` stays in its state for the rest of the
capture-result sequence. -/
theorem runLoop_not_running (budget : Nat) :
    ∀ (rs : List CaptureResult) (st : LoopState),
      st.phase ≠ Phase.Running → runLoop budget st rs = st := by
  intro rs
  induction rs with
  | nil => intro st _; rfl
  | cons r rest ih =>
    intro st h
    show runLoop budget (loopStep budget st r) rest = st
    rw [loopStep_not_running budget st r h]
    exact ih st h

/-- A run of consecutive capture errors that keeps the failure counter
within the retry budget leaves the loop `Running`, with the counter
advanced by the length of the run. -/
theorem runLoop_err_within (budget : Nat) :
    ∀ (n f : Nat), f + n ≤ budget →
      runLoop budget
          { phase := Phase.Running, consecutiveFailures := f,
            sourceAvailable := true }
          (List.replicate n CaptureResult.err) =
        { phase := Phase.Running, consecutiveFailures := f + n,
          sourceAvailable := true } := by
  intro n
  induction n with
  | zero => intro f _; rfl
  | succ m ih =>
    intro f hle
    rw [List.replicate_succ]
    show runLoop budget
        (loopStep budget
          { phase := Phase.Running, consecutiveFailures := f,
            sourceAvailable := true } CaptureResult.err)
        (List.replicate m CaptureResult.err) = _
    have hnot : ¬ budget < f + 1 := by omega
    simp only [loopStep, hnot, if_false]
    have := ih (f + 1) (by omega)
    rw [this]
    congr 1
    omega

/-- A run of consecutive capture errors that pushes the failure counter
past the retry budget stops the loop and marks the source unavailable. -/
theorem runLoop_err_exceed (budget : Nat) :
    ∀ (n f : Nat), f ≤ budget → budget < f + n →
      runLoop budget
          { phase := Phase.Running, consecutiveFailures := f,
            sourceAvailable := true }
          (List.replicate n CaptureResult.err) =
        { phase := Phase.Stopped, consecutiveFailures := budget + 1,
          sourceAvailable := false } := by
  intro n
  induction n with
  | zero => intro f h1 h2; omega
  | succ m ih =>
    intro f h1 h2
    rw [List.replicate_succ]
    show runLoop budget
        (loopStep budget
          { phase := Phase.Running, consecutiveFailures := f,
            sourceAvailable := true } CaptureResult.err)
        (List.replicate m CaptureResult.err) = _
    by_cases hb : budget < f + 1
    · have hf : f = budget := by omega
      simp only [loopStep, hb, if_true]
      rw [runLoop_not_running budget _ _ (by simp)]
      rw [hf]
    · simp only [loopStep, hb, if_false]
      exact ih (f + 1) (by omega) (by omega)

/-- C6: starting from the `Running` state with a fresh failure counter, a
run of n consecutive `CaptureError`s followed by a successful capture
leaves the loop `Running` when n is within the retry budget; when n
exceeds the budget the loop transitions to `Stopped`, and the source is
marked unavailable so that new stream subscriptions are refused. -/
theorem captureLoop_retry_budget (budget n : Nat) :
    (n ≤ budget →
      (runLoop budget LoopState.start
          (List.replicate n CaptureResult.err ++ [CaptureResult.ok])).phase =
        Phase.Running)
    ∧ (budget < n →
        (runLoop budget LoopState.start
            (List.replicate n CaptureResult.err ++ [CaptureResult.ok])).phase =
          Phase.Stopped
        ∧ subscribeAllowed
            (runLoop budget LoopState.start
              (List.replicate n CaptureResult.err ++ [CaptureResult.ok]))
            = false) := by
  have hsplit : runLoop budget LoopState.start
      (List.replicate n CaptureResult.err ++ [CaptureResult.ok]) =
      loopStep budget
        (runLoop budget LoopState.start (List.replicate n CaptureResult.err))
        CaptureResult.ok := by
    unfold runLoop
    rw [List.foldl_append]
    rfl
  constructor
  · intro hle
    rw [hsplit]
    unfold LoopState.start
    rw [runLoop_err_within budget n 0 (by omega)]
    rfl
  · intro hgt
    rw [hsplit]
    unfold LoopState.start
    rw [runLoop_err_exceed budget n 0 (by omega) (by omega)]
    exact ⟨rfl, rfl⟩

/-- C6 witness: with retry budget 2, two errors then a success keep the
loop `Running`, while three errors stop it and block new subscriptions. -/
theorem captureLoop_retry_budget_check :
    ((2 : Nat) ≤ 2
      ∧ (runLoop 2 LoopState.start
          (List.replicate 2 CaptureResult.err ++ [CaptureResult.ok])).phase =
        Phase.Running)
    ∧ ((2 : Nat) < 3
      ∧ (runLoop 2 LoopState.start
          (List.replicate 3 CaptureResult.err ++ [CaptureResult.ok])).phase =
        Phase.Stopped
      ∧ subscribeAllowed
          (runLoop 2 LoopState.start
            (List.replicate 3 CaptureResult.err ++ [CaptureResult.ok]))
          = false) :=
  ⟨⟨by decide, (captureLoop_retry_budget 2 2).1 (by decide)⟩,
   ⟨by decide, ((captureLoop_retry_budget 2 3).2 (by decide)).1,
    ((captureLoop_retry_budget 2 3).2 (by decide)).2⟩⟩

/-- The reader invariant is preserved by any remaining event sequence whose
publishes carry strictly increasing sequence numbers, all newer than the
frame currently in the slot. -/
theorem busStep_foldl_inv :
    ∀ (evs : List BusEvent) (st : BusRun),
      BusInv st →
      List.Pairwise (fun a b => a < b) (publishedSeqs evs) →
      (∀ b, st.bus = some b → ∀ s ∈ publishedSeqs evs, b.seq < s) →
      BusInv (evs.foldl busStep st) := by
  intro evs
  induction evs with
  | nil => intro st hinv _ _; exact hinv
  | cons e rest ih =>
    intro st hinv hp hfut
    cases e with
    | publish pf =>
      rw [List.foldl_cons]
      have hp2 := List.pairwise_cons.mp hp
      have hstep : busStep st (BusEvent.publish pf) =
          { bus := some pf, log := st.log } := rfl
      rw [hstep]
      apply ih
      · refine ⟨hinv.1, ?_, ?_⟩
        · intro g hg b hb
          have hb2 : some pf = some b := hb
          have hbf : pf = b := Option.some.inj hb2
          subst hbf
          have hg2 : g ∈ st.log := hg
          cases hbus : st.bus with
          | none =>
            have hlog := hinv.2.2 hbus
            rw [hlog] at hg2
            exact absurd hg2 (List.not_mem_nil g)
          | some c =>
            have h1 : g.seq ≤ c.seq := hinv.2.1 g hg2 c hbus
            have h2 : c.seq < pf.seq :=
              hfut c hbus pf.seq (List.mem_cons_self _ _)
            exact le_of_lt (lt_of_le_of_lt h1 h2)
        · intro hnone
          have hn2 : (some pf : Option Frame) = none := hnone
          exact Option.noConfusion hn2
      · exact hp2.2
      · intro b hb s hs
        have hb2 : some pf = some b := hb
        have hbf : pf = b := Option.some.inj hb2
        subst hbf
        exact hp2.1 s hs
    | read =>
      rw [List.foldl_cons]
      cases hbus : st.bus with
      | none =>
        have hstep : busStep st BusEvent.read = st := by
          simp [busStep, hbus]
        rw [hstep]
        apply ih st hinv hp
        intro b hb s hs
        rw [hbus] at hb
        exact Option.noConfusion hb
      | some c =>
        have hstep : busStep st BusEvent.read =
            { bus := st.bus, log := st.log ++ [c] } := by
          simp [busStep, hbus]
        rw [hstep]
        apply ih
        · refine ⟨?_, ?_, ?_⟩
          · show List.Pairwise (fun a b => a ≤ b)
                ((st.log ++ [c]).map Frame.seq)
            rw [List.map_append, List.pairwise_append]
            refine ⟨hinv.1, List.pairwise_singleton _ _, ?_⟩
            intro x hx y hy
            obtain ⟨g, hg, hgx⟩ := List.mem_map.mp hx
            have hyc : y = c.seq := by simpa using hy
            rw [← hgx, hyc]
            exact hinv.2.1 g hg c hbus
          · intro g hg b hb
            have hb2 : st.bus = some b := hb
            rw [hbus] at hb2
            have hcb : c = b := Option.some.inj hb2
            subst hcb
            have hg2 : g ∈ st.log ++ [c] := hg
            rcases List.mem_append.mp hg2 with hgl | hgr
            · exact hinv.2.1 g hgl c hbus
            · have hgc : g = c := by simpa using hgr
              rw [hgc]
          · intro hnone
            have hn2 : st.bus = none := hnone
            rw [hbus] at hn2
            exact Option.noConfusion hn2
        · exact hp
        · intro b hb s hs
          have hb2 : st.bus = some b := hb
          rw [hbus] at hb2
          have hcb : c = b := Option.some.inj hb2
          subst hcb
          exact hfut c hbus s hs

/-- C7: for every event sequence in which the published frames carry
strictly increasing sequence numbers (the Camera Source invariant), the
frames `latest()` returns to a single reader have non-decreasing sequence
numbers — the bus never hands the reader a frame older than one it already
returned. -/
theorem frameBus_reader_monotone (evs : List BusEvent)
    (h : List.Pairwise (fun a b => a < b) (publishedSeqs evs)) :
    List.Pairwise (fun a b => a ≤ b) ((runBus evs).log.map Frame.seq) := by
  have hinv : BusInv { bus := none, log := [] } :=
    ⟨List.Pairwise.nil, by intro f hf; exact absurd hf (List.not_mem_nil f),
     fun _ => rfl⟩
  have := busStep_foldl_inv evs { bus := none, log := [] } hinv h
    (by intro b hb; exact absurd hb (Option.noConfusion))
  exact this.1

/-- C7 witness: the theorem applied at a concrete publish/read interleaving
with strictly increasing published sequence numbers. -/
theorem frameBus_reader_monotone_check :
    List.Pairwise (fun a b => a < b)
      (publishedSeqs
        [BusEvent.publish { seq := 1, timestamp := 10, data := "f1" },
         BusEvent.read,
         BusEvent.publish { seq := 2, timestamp := 11, data := "f2" },
         BusEvent.read, BusEvent.read])
    ∧ List.Pairwise (fun a b => a ≤ b)
        ((runBus
          [BusEvent.publish { seq := 1, timestamp := 10, data := "f1" },
           BusEvent.read,
           BusEvent.publish { seq := 2, timestamp := 11, data := "f2" },
           BusEvent.read, BusEvent.read]).log.map Frame.seq) :=
  ⟨by decide, frameBus_reader_monotone _ (by decide)⟩
